import Mathlib

set_option maxHeartbeats 1000000

/-!
Verification development for the `ForOfLoop` AST node of the boa interpreter
(`src/boa/src/syntax/ast/node/iteration/for_of_loop/mod.rs`).

The Rust source is shallowly embedded below.  The external collaborators of
the node (expression evaluator, iterator protocol, body execution) are
supplied as oracles: the outcome of evaluating the iterable expression, the
outcome of `get_iterator`, and a per-iteration script of `next()` outcomes
and body-execution outcomes.  The environment chain is modelled by a
`Context` state that tracks the chain depth, the number of pushes and pops
performed by `run` itself, the set of bound names (for `has_binding`), the
trace of environment operations performed, and the interpreter completion
state.
-/

/-- Placeholder for an initializer expression node attached to a declaration.
`ForOfLoop::run` never evaluates the initializer; it only tests
`var.init().is_some()` (mod.rs lines 117, 140, 160), so the expression itself
stays opaque here. -/
inductive InitExpr where
  | mk (tag : Nat)
  deriving DecidableEq

/-- A single declaration in a `var`/`let`/`const` declaration list: a name and
an optional initializer expression. -/
structure Declaration where
  name : String
  init : Option InitExpr
  deriving DecidableEq

/-- The AST node kinds that `ForOfLoop::run` dispatches on for the loop-head
target (mod.rs lines 101-186).  `Other` stands for every remaining
`NodeKind` variant of the interpreter, which the loop treats uniformly via
its catch-all arm; `Assign` is the assignment-expression variant, which has
its own arm (line 177). -/
inductive NodeKind where
  | Identifier (name : String)
  | VarDeclList (list : List Declaration)
  | LetDeclList (list : List Declaration)
  | ConstDeclList (list : List Declaration)
  | Assign (tag : Nat)
  | Other (tag : Nat)
  deriving DecidableEq

/-- An AST node; `run` only ever inspects `kind` of the loop-head node
(`self.variable().kind()`, mod.rs line 101). -/
structure Node where
  kind : NodeKind
  deriving DecidableEq

/-- The `ForOfLoop` struct (mod.rs lines 19-24): loop-head target node,
iterable expression node, body node, and an optional label attached later by
the enclosing labelled statement. -/
structure ForOfLoop where
  variable' : Node
  iterable : Node
  body : Node
  label : Option String
  deriving DecidableEq

/-- `ForOfLoop::new` (mod.rs lines 27-39): builds the node with `label: None`. -/
def ForOfLoop.new (variable' : Node) (iterable : Node) (body : Node) : ForOfLoop :=
  { variable' := variable', iterable := iterable, body := body, label := none }

/-- `ForOfLoop::set_label` (mod.rs lines 57-59): plain overwriting setter. -/
def ForOfLoop.set_label (self : ForOfLoop) (label : String) : ForOfLoop :=
  { self with label := some label }

/-- Runtime values.  boa errors are ordinary values (`Result<T> = Result<T, Value>`);
`syntaxError msg` is the value produced by `Context::throw_syntax_error(msg)`,
and `object tag` stands for any other (opaque) runtime value, including
arbitrary thrown error values. -/
inductive Value where
  | undefined
  | integer (n : Int)
  | string (s : String)
  | syntaxError (msg : String)
  | object (tag : Nat)
  deriving DecidableEq

/-- `VariableScope` (boa `environment::lexical_environment::VariableScope`). -/
inductive VariableScope where
  | Function
  | Block
  deriving DecidableEq

/-- The interpreter completion state (`exec::InterpreterState`).  `Error` is
the variant gated behind the `vm` feature in the source. -/
inductive InterpreterState where
  | Executing
  | Break (label : Option String)
  | Continue (label : Option String)
  | Return
  | Error
  deriving DecidableEq

/-- Trace entries for the environment operations `ForOfLoop::run` performs on
the context.  `has_binding` queries are recorded too, so that "never consults
`has_binding`" is expressible about a run. -/
inductive EnvOp where
  | push
  | pop
  | has_binding (name : String)
  | create_mutable_binding (name : String) (deletable : Bool) (scope : VariableScope)
  | create_immutable_binding (name : String) (deletable : Bool) (scope : VariableScope)
  | initialize_binding (name : String) (value : Value)
  | set_mutable_binding (name : String) (value : Value) (strict : Bool)
  deriving DecidableEq

/-- The slice of the interpreter `Context` that `ForOfLoop::run` touches:
the environment-chain depth, counters of the pushes and pops `run` itself
performs, the names bound anywhere on the chain (backing `has_binding`), the
trace of environment operations, and the current completion state. -/
structure Context where
  envDepth : Nat
  pushes : Nat
  pops : Nat
  bindings : List String
  ops : List EnvOp
  state : InterpreterState
  deriving DecidableEq

/-- `context.push_environment(DeclarativeEnvironmentRecord::new(..))`
(mod.rs line 92): one new frame on top of the chain. -/
def Context.push_environment (ctx : Context) : Context :=
  { ctx with
      envDepth := ctx.envDepth + 1
      pushes := ctx.pushes + 1
      ops := ctx.ops ++ [EnvOp.push] }

/-- `context.pop_environment()` (mod.rs lines 96, 204): discard the top frame. -/
def Context.pop_environment (ctx : Context) : Context :=
  { ctx with
      envDepth := ctx.envDepth - 1
      pops := ctx.pops + 1
      ops := ctx.ops ++ [EnvOp.pop] }

/-- `context.has_binding(name)` (mod.rs lines 103, 121): resolves the name
against the whole chain; the query is also recorded in the trace. -/
def Context.has_binding (ctx : Context) (name : String) : Bool × Context :=
  (ctx.bindings.contains name, { ctx with ops := ctx.ops ++ [EnvOp.has_binding name] })

/-- `context.create_mutable_binding(name, deletable, scope)` (mod.rs lines
107, 124, 144). -/
def Context.create_mutable_binding (ctx : Context) (name : String) (deletable : Bool)
    (scope : VariableScope) : Context :=
  { ctx with
      bindings := name :: ctx.bindings
      ops := ctx.ops ++ [EnvOp.create_mutable_binding name deletable scope] }

/-- `context.create_immutable_binding(name, deletable, scope)` (mod.rs line 164). -/
def Context.create_immutable_binding (ctx : Context) (name : String) (deletable : Bool)
    (scope : VariableScope) : Context :=
  { ctx with
      bindings := name :: ctx.bindings
      ops := ctx.ops ++ [EnvOp.create_immutable_binding name deletable scope] }

/-- `context.initialize_binding(name, value)` (mod.rs lines 112, 129, 150, 169). -/
def Context.initialize_binding (ctx : Context) (name : String) (value : Value) : Context :=
  { ctx with ops := ctx.ops ++ [EnvOp.initialize_binding name value] }

/-- `context.set_mutable_binding(name, value, strict)` (mod.rs lines 105, 122). -/
def Context.set_mutable_binding (ctx : Context) (name : String) (value : Value)
    (strict : Bool) : Context :=
  { ctx with ops := ctx.ops ++ [EnvOp.set_mutable_binding name value strict] }

/-- `context.throw_syntax_error(msg)`: builds a syntax-error value and returns
it on the error channel. -/
def throw_syntax_error (msg : String) : Except Value Context :=
  Except.error (Value.syntaxError msg)

/-- Error message at mod.rs lines 118, 141, 161, 179 (apostrophe written as an
escape). -/
def initializerErrorMsg : String :=
  "a declaration in the head of a for-of loop can\x27t have an initializer"

/-- Error message at mod.rs lines 134, 154, 173. -/
def onlyOneErrorMsg : String :=
  "only one variable can be declared in the head of a for-of loop"

/-- Error message at mod.rs line 184. -/
def unknownLhsErrorMsg : String :=
  "unknown left hand side in head of for-of loop"

/-- The binding-installation step of `ForOfLoop::run`: the
`match self.variable().kind()` block at mod.rs lines 101-186, applied to the
current iterator value `next_result`.  Every failing arm in the source
returns from `run` before performing any environment operation, so an error
here leaves the context exactly as it was. -/
def bindForOfTarget (kind : NodeKind) (next_result : Value) (ctx : Context) :
    Except Value Context :=
  match kind with
  | NodeKind.Identifier name =>
    match ctx.has_binding name with
    | (b, ctx) =>
      if b then
        Except.ok (ctx.set_mutable_binding name next_result true)
      else
        Except.ok ((ctx.create_mutable_binding name true
          VariableScope.Function).initialize_binding name next_result)
  | NodeKind.VarDeclList list =>
    match list with
    | [var] =>
      if var.init.isSome then
        throw_syntax_error initializerErrorMsg
      else
        match ctx.has_binding var.name with
        | (b, ctx) =>
          if b then
            Except.ok (ctx.set_mutable_binding var.name next_result true)
          else
            Except.ok ((ctx.create_mutable_binding var.name false
              VariableScope.Function).initialize_binding var.name next_result)
    | _ => throw_syntax_error onlyOneErrorMsg
  | NodeKind.LetDeclList list =>
    match list with
    | [var] =>
      if var.init.isSome then
        throw_syntax_error initializerErrorMsg
      else
        Except.ok ((ctx.create_mutable_binding var.name false
          VariableScope.Block).initialize_binding var.name next_result)
    | _ => throw_syntax_error onlyOneErrorMsg
  | NodeKind.ConstDeclList list =>
    match list with
    | [var] =>
      if var.init.isSome then
        throw_syntax_error initializerErrorMsg
      else
        Except.ok ((ctx.create_immutable_binding var.name false
          VariableScope.Block).initialize_binding var.name next_result)
    | _ => throw_syntax_error onlyOneErrorMsg
  | NodeKind.Assign _ => throw_syntax_error initializerErrorMsg
  | NodeKind.Other _ => throw_syntax_error unknownLhsErrorMsg

/-- The `{done, value}` result of one `Iterator::next` call. -/
structure IteratorResult where
  done : Bool
  value : Value
  deriving DecidableEq

/-- Oracle for one loop iteration: the outcome of the `iterator.next(context)`
call, and — if the loop reaches body execution — the outcome of
`self.body().run(context)` paired with the interpreter completion state the
body leaves behind. -/
structure IterStep where
  next : Except Value IteratorResult
  body : Except Value (Value × InterpreterState)

/-- Modelled from the spec: the label-matching rule of the macro
`handle_state_with_labels!` of this repository, whose definition is not among the provided
sources.  Per the spec (section 4.3 step e), a `break`/`continue` signal is
consumed exactly when its label is absent or equal to the own label of the
construct; otherwise the frame is popped and the signal is re-emitted unchanged. -/
def labelMatches (selfLabel : Option String) (signalLabel : Option String) : Bool :=
  match signalLabel with
  | none => true
  | some l => selfLabel == some l

/-- The `loop { .. }` of `ForOfLoop::run` (mod.rs lines 89-205), driven by the
per-iteration oracle script.  Returns `none` when the script is exhausted
before the loop terminates (the run would keep iterating), otherwise the
overall `Result<Value>` of `run` together with the final context. -/
def runLoop (self : ForOfLoop) (steps : List IterStep) (result : Value) (ctx : Context) :
    Option (Except Value Value × Context) :=
  match steps with
  | [] => none
  | step :: rest =>
    let ctx := ctx.push_environment
    match step.next with
    | Except.error e => some (Except.error e, ctx)
    | Except.ok iterator_result =>
      if iterator_result.done then
        some (Except.ok result, ctx.pop_environment)
      else
        let next_result := iterator_result.value
        match bindForOfTarget self.variable'.kind next_result ctx with
        | Except.error e => some (Except.error e, ctx)
        | Except.ok ctx =>
          match step.body with
          | Except.error e => some (Except.error e, ctx)
          | Except.ok (bodyValue, st) =>
            let result := bodyValue
            let ctx := { ctx with state := st }
            match st with
            | InterpreterState.Break label =>
              if labelMatches self.label label then
                some (Except.ok result, { ctx with state := InterpreterState.Executing })
              else
                some (Except.ok result, ctx.pop_environment)
            | InterpreterState.Continue label =>
              if labelMatches self.label label then
                runLoop self rest result
                  (Context.pop_environment { ctx with state := InterpreterState.Executing })
              else
                some (Except.ok result, ctx.pop_environment)
            | InterpreterState.Return => some (Except.ok result, ctx)
            | InterpreterState.Executing => runLoop self rest result ctx.pop_environment
            | InterpreterState.Error => runLoop self rest result ctx.pop_environment

/-- `ForOfLoop::run` (mod.rs lines 83-207).  `iterableResult` is the outcome
of `self.iterable().run(context)` (line 85) and `iteratorResult` the outcome
of `get_iterator(context, iterable)` (line 86); both are oracles for the
external evaluator and iterator subsystems, and neither touches the
environment chain slice modelled here. -/
def ForOfLoop.run (self : ForOfLoop) (iterableResult : Except Value Value)
    (iteratorResult : Except Value Unit) (steps : List IterStep) (ctx : Context) :
    Option (Except Value Value × Context) :=
  match iterableResult with
  | Except.error e => some (Except.error e, ctx)
  | Except.ok _iterable =>
    match iteratorResult with
    | Except.error e => some (Except.error e, ctx)
    | Except.ok _ => runLoop self steps Value.undefined ctx

/-- Projection: the `Result<Value>` a completed run produced. -/
def resultValue : Option (Except Value Value × Context) → Option (Except Value Value)
  | none => none
  | some (v, _) => some v

/-- Projection: the environment-chain depth after a completed run. -/
def resultDepth : Option (Except Value Value × Context) → Option Nat
  | none => none
  | some (_, c) => some c.envDepth

/-- Projection: how many environment pushes have been performed after a
completed run. -/
def resultPushes : Option (Except Value Value × Context) → Option Nat
  | none => none
  | some (_, c) => some c.pushes

/-- Projection: how many environment pops have been performed after a
completed run. -/
def resultPops : Option (Except Value Value × Context) → Option Nat
  | none => none
  | some (_, c) => some c.pops

/-- Projection: the suffix of environment operations the binding-installation
step appended to the trace, or the error it failed with. -/
def bindOpsSuffix (kind : NodeKind) (v : Value) (ctx : Context) :
    Except Value (List EnvOp) :=
  (bindForOfTarget kind v ctx).map (fun c => c.ops.drop ctx.ops.length)

/-- Classification of loop heads the source rejects as illegal declaration
heads: a `var`/`let`/`const` declaration list whose single entry carries an
initializer, or such a list with a number of entries other than one, paired
with the syntax-error message the source throws for it. -/
def declHeadIllegal : NodeKind → Option String
  | NodeKind.VarDeclList [d] => if d.init.isSome then some initializerErrorMsg else none
  | NodeKind.VarDeclList _ => some onlyOneErrorMsg
  | NodeKind.LetDeclList [d] => if d.init.isSome then some initializerErrorMsg else none
  | NodeKind.LetDeclList _ => some onlyOneErrorMsg
  | NodeKind.ConstDeclList [d] => if d.init.isSome then some initializerErrorMsg else none
  | NodeKind.ConstDeclList _ => some onlyOneErrorMsg
  | _ => none

/-- Loop heads on which the binding-installation step always succeeds: a bare
identifier, or a single-entry `var`/`let`/`const` list without initializer. -/
def headBindable : NodeKind → Bool
  | NodeKind.Identifier _ => true
  | NodeKind.VarDeclList [d] => !d.init.isSome
  | NodeKind.LetDeclList [d] => !d.init.isSome
  | NodeKind.ConstDeclList [d] => !d.init.isSome
  | _ => false

/-- An iteration step that completes normally: `next()` yields the first
component of the pair, the body completes with the second component in the
`Executing` state. -/
def normalStepOf (p : Value × Value) : IterStep :=
  IterStep.mk (Except.ok (IteratorResult.mk false p.1))
    (Except.ok (p.2, InterpreterState.Executing))

/-- An iteration step whose `next()` signals `done` (its body outcome is
irrelevant and never consulted). -/
def doneStepOf (w : Value) (bo : Except Value (Value × InterpreterState)) : IterStep :=
  IterStep.mk (Except.ok (IteratorResult.mk true w)) bo

/-- The last element of a list, or the default when the list is empty. -/
def lastValueD : List Value → Value → Value
  | [], d => d
  | v :: rest, _ => lastValueD rest v

/-! ## Concrete fixtures used by the closed theorems below -/

/-- An initial context: empty chain slice, no bindings, `Executing` state. -/
def ctx0 : Context :=
  { envDepth := 0, pushes := 0, pops := 0, bindings := [], ops := []
    state := InterpreterState.Executing }

/-- An opaque expression node (stands for the iterable / body positions). -/
def exprNode (tag : Nat) : Node :=
  Node.mk (NodeKind.Other tag)

/-- Loop with a bare-identifier head: `for (x of ..) ..`. -/
def identLoop : ForOfLoop :=
  ForOfLoop.new (Node.mk (NodeKind.Identifier ("x"))) (exprNode 0) (exprNode 1)

/-- Loop with a single-entry, initializer-free `let` head: `for (let x of ..) ..`. -/
def letLoop : ForOfLoop :=
  ForOfLoop.new (Node.mk (NodeKind.LetDeclList [Declaration.mk ("x") none]))
    (exprNode 0) (exprNode 1)

/-- Loop with a two-entry `var` declaration list head. -/
def multiVarLoop : ForOfLoop :=
  ForOfLoop.new
    (Node.mk (NodeKind.VarDeclList
      [Declaration.mk ("a") none, Declaration.mk ("b") none]))
    (exprNode 0) (exprNode 1)

/-- Loop whose `var` head carries an initializer: `for (var x = 1 of ..) ..`. -/
def varInitLoop : ForOfLoop :=
  ForOfLoop.new
    (Node.mk (NodeKind.VarDeclList [Declaration.mk ("x") (some (InitExpr.mk 0))]))
    (exprNode 0) (exprNode 1)

/-- Iteration step: `next()` yields the value `1`, and the body completes with
value `7` leaving the `Return` state behind. -/
def returnStep : IterStep :=
  IterStep.mk (Except.ok (IteratorResult.mk false (Value.integer 1)))
    (Except.ok (Value.integer 7, InterpreterState.Return))

/-- Iteration step whose `next()` call fails with a thrown error value. -/
def nextFailStep : IterStep :=
  IterStep.mk (Except.error (Value.object 5))
    (Except.ok (Value.undefined, InterpreterState.Executing))

/-- Iteration step: `next()` yields a value, then body execution fails with a
thrown error value. -/
def bodyFailStep : IterStep :=
  IterStep.mk (Except.ok (IteratorResult.mk false (Value.integer 1)))
    (Except.error (Value.object 9))

/-- Iteration step whose `next()` signals `done`. -/
def doneStep : IterStep :=
  IterStep.mk (Except.ok (IteratorResult.mk true Value.undefined))
    (Except.ok (Value.undefined, InterpreterState.Executing))

/-- Iteration step: body completes with value `10` leaving the `Error`
completion state behind. -/
def errorStateStep : IterStep :=
  IterStep.mk (Except.ok (IteratorResult.mk false (Value.integer 1)))
    (Except.ok (Value.integer 10, InterpreterState.Error))

/-- Ordinary iteration step: `next()` yields `2`, body completes with value
`20` in the `Executing` state. -/
def plainStep : IterStep :=
  IterStep.mk (Except.ok (IteratorResult.mk false (Value.integer 2)))
    (Except.ok (Value.integer 20, InterpreterState.Executing))

/-! ## C1 and C2: push/pop parity -/

/-- C1: the claim states that on every exit path of `ForOfLoop::run` the
number of environment pushes equals the number of pops.  The code violates
this: evaluated here on four concrete exit paths — the `Return` branch, an
iterator-`next` failure, a legality (syntax-error) failure, and a
body-execution failure — each run performs one push and zero pops, leaving
the pushed frame on the chain when `run` exits. -/
theorem c1_push_pop_imbalance_on_exit_paths :
    (resultPushes (ForOfLoop.run identLoop (Except.ok (Value.integer 0))
        (Except.ok ()) [returnStep] ctx0) = some 1
      ∧ resultPops (ForOfLoop.run identLoop (Except.ok (Value.integer 0))
        (Except.ok ()) [returnStep] ctx0) = some 0)
    ∧ (resultPushes (ForOfLoop.run identLoop (Except.ok (Value.integer 0))
        (Except.ok ()) [nextFailStep] ctx0) = some 1
      ∧ resultPops (ForOfLoop.run identLoop (Except.ok (Value.integer 0))
        (Except.ok ()) [nextFailStep] ctx0) = some 0)
    ∧ (resultPushes (ForOfLoop.run multiVarLoop (Except.ok (Value.integer 0))
        (Except.ok ()) [returnStep] ctx0) = some 1
      ∧ resultPops (ForOfLoop.run multiVarLoop (Except.ok (Value.integer 0))
        (Except.ok ()) [returnStep] ctx0) = some 0)
    ∧ (resultPushes (ForOfLoop.run identLoop (Except.ok (Value.integer 0))
        (Except.ok ()) [bodyFailStep] ctx0) = some 1
      ∧ resultPops (ForOfLoop.run identLoop (Except.ok (Value.integer 0))
        (Except.ok ()) [bodyFailStep] ctx0) = some 0) :=
  ⟨⟨rfl, rfl⟩, ⟨rfl, rfl⟩, ⟨rfl, rfl⟩, ⟨rfl, rfl⟩⟩

/-- C2: the claim states that on the `Return` completion state `run` pops the
scope frame of the iteration and then returns the body value, leaving the
chain depth as it was on entry.  The code does return the body value at once,
but performs no pop: starting from depth 0 the run ends at depth 1 with one
push and zero pops. -/
theorem c2_return_state_skips_pop :
    resultValue (ForOfLoop.run identLoop (Except.ok (Value.integer 0))
      (Except.ok ()) [returnStep] ctx0) = some (Except.ok (Value.integer 7))
    ∧ resultDepth (ForOfLoop.run identLoop (Except.ok (Value.integer 0))
      (Except.ok ()) [returnStep] ctx0) = some 1
    ∧ resultPops (ForOfLoop.run identLoop (Except.ok (Value.integer 0))
      (Except.ok ()) [returnStep] ctx0) = some 0 :=
  ⟨rfl, rfl, rfl⟩

/-! ## C3: legality failures happen per-iteration, after `next()` -/

/-- Helper: on an illegal declaration head, the binding-installation step
fails with the classified syntax error, whatever the context and value. -/
theorem bindForOfTarget_illegal_head (kind : NodeKind) (msg : String)
    (v : Value) (ctx : Context) (hmsg : declHeadIllegal kind = some msg) :
    bindForOfTarget kind v ctx = Except.error (Value.syntaxError msg) := by
  rcases kind with name | list | list | list | tag | tag
  · simp [declHeadIllegal] at hmsg
  · rcases list with _ | ⟨d, _ | ⟨d₂, t⟩⟩
    · simp [declHeadIllegal] at hmsg
      subst hmsg
      simp [bindForOfTarget, throw_syntax_error]
    · rcases hinit : d.init with _ | e
      · simp [declHeadIllegal, hinit] at hmsg
      · simp [declHeadIllegal, hinit] at hmsg
        subst hmsg
        simp [bindForOfTarget, hinit, throw_syntax_error]
    · simp [declHeadIllegal] at hmsg
      subst hmsg
      simp [bindForOfTarget, throw_syntax_error]
  · rcases list with _ | ⟨d, _ | ⟨d₂, t⟩⟩
    · simp [declHeadIllegal] at hmsg
      subst hmsg
      simp [bindForOfTarget, throw_syntax_error]
    · rcases hinit : d.init with _ | e
      · simp [declHeadIllegal, hinit] at hmsg
      · simp [declHeadIllegal, hinit] at hmsg
        subst hmsg
        simp [bindForOfTarget, hinit, throw_syntax_error]
    · simp [declHeadIllegal] at hmsg
      subst hmsg
      simp [bindForOfTarget, throw_syntax_error]
  · rcases list with _ | ⟨d, _ | ⟨d₂, t⟩⟩
    · simp [declHeadIllegal] at hmsg
      subst hmsg
      simp [bindForOfTarget, throw_syntax_error]
    · rcases hinit : d.init with _ | e
      · simp [declHeadIllegal, hinit] at hmsg
      · simp [declHeadIllegal, hinit] at hmsg
        subst hmsg
        simp [bindForOfTarget, hinit, throw_syntax_error]
    · simp [declHeadIllegal] at hmsg
      subst hmsg
      simp [bindForOfTarget, throw_syntax_error]
  · simp [declHeadIllegal] at hmsg
  · simp [declHeadIllegal] at hmsg

/-- C3 counterexample: the claim asserts the syntax error is raised for every
iterable, including an empty one.  On an empty iterable (first `next()`
signals `done`) a loop whose `var` head carries an initializer completes
normally with `undefined` and a balanced push/pop — no error is ever
raised, because the legality checks sit inside the loop after the `next()`
call. -/
theorem c3_counterexample_empty_iterable_completes :
    resultValue (ForOfLoop.run varInitLoop (Except.ok (Value.integer 0))
      (Except.ok ()) [doneStep] ctx0) = some (Except.ok Value.undefined)
    ∧ resultDepth (ForOfLoop.run varInitLoop (Except.ok (Value.integer 0))
      (Except.ok ()) [doneStep] ctx0) = some 0 :=
  ⟨rfl, rfl⟩

/-- C3 amended: for every iterable whose first `next()` call yields a value
(is not `done`), a loop head that is a declaration list with an initializer
on its single entry, or with a number of entries other than one, makes `run`
fail with the corresponding syntax error before any body execution (the final
context is exactly the entry context plus the one pushed frame, so the body
oracle is never consulted); on an empty iterable `run` instead completes
normally without raising the error. -/
theorem c3_amended_illegal_head_fails_on_first_value (self : ForOfLoop)
    (msg : String) (v iterVal : Value) (step : IterStep) (rest : List IterStep)
    (ctx : Context)
    (hmsg : declHeadIllegal self.variable'.kind = some msg)
    (hnext : step.next = Except.ok (IteratorResult.mk false v)) :
    ForOfLoop.run self (Except.ok iterVal) (Except.ok ()) (step :: rest) ctx
      = some (Except.error (Value.syntaxError msg), ctx.push_environment) := by
  have hbind := bindForOfTarget_illegal_head self.variable'.kind msg v
    ctx.push_environment hmsg
  obtain ⟨nx, bo⟩ := step
  simp only at hnext
  subst hnext
  simp [ForOfLoop.run, runLoop, hbind]

/-- C3 witness: instantiating the amended theorem on a loop head
`var x = <expr>` and a one-element iterable — the run fails with the
initializer syntax error even though the body outcome in the script is itself
a failure (the body is never reached). -/
theorem c3_amended_witness :
    ForOfLoop.run varInitLoop (Except.ok (Value.integer 0)) (Except.ok ())
        [IterStep.mk (Except.ok (IteratorResult.mk false (Value.integer 1)))
          (Except.error (Value.object 3))] ctx0
      = some (Except.error (Value.syntaxError initializerErrorMsg),
          ctx0.push_environment) :=
  c3_amended_illegal_head_fails_on_first_value varInitLoop initializerErrorMsg
    (Value.integer 1) (Value.integer 0)
    (IterStep.mk (Except.ok (IteratorResult.mk false (Value.integer 1)))
      (Except.error (Value.object 3))) [] ctx0 rfl rfl

/-! ## C7: the catch-all arm and the `Assign` arm -/

/-- C7 counterexample: the claim asserts every loop-head shape other than an
identifier or a declaration list — "for example an assignment pattern" —
fails with the unknown-left-hand-side message.  An assignment node actually
fails with the initializer message, which is a different string. -/
theorem c7_counterexample_assign_uses_initializer_message :
    bindForOfTarget (NodeKind.Assign 0) (Value.integer 1) ctx0
      = Except.error (Value.syntaxError initializerErrorMsg)
    ∧ initializerErrorMsg ≠ unknownLhsErrorMsg :=
  ⟨rfl, by decide⟩

/-- C7 amended: every loop-head shape other than an identifier or a
declaration list fails at the binding-installation step; an assignment
node fails with the initializer-restriction message, and every remaining
shape fails with the unknown-left-hand-side message. -/
theorem c7_amended_other_shape_errors (tag : Nat) (v : Value) (ctx : Context) :
    bindForOfTarget (NodeKind.Assign tag) v ctx
      = Except.error (Value.syntaxError initializerErrorMsg)
    ∧ bindForOfTarget (NodeKind.Other tag) v ctx
      = Except.error (Value.syntaxError unknownLhsErrorMsg) :=
  ⟨rfl, rfl⟩

/-! ## C8: failures before the loop body starts -/

/-- C8: if evaluating the iterable expression fails, or `get_iterator` fails,
`run` propagates that error with the context completely untouched — in
particular no environment frame has been pushed. -/
theorem c8_pre_loop_failure_leaves_context_unchanged (self : ForOfLoop)
    (e v : Value) (iteratorResult : Except Value Unit) (steps : List IterStep)
    (ctx : Context) :
    ForOfLoop.run self (Except.error e) iteratorResult steps ctx
      = some (Except.error e, ctx)
    ∧ ForOfLoop.run self (Except.ok v) (Except.error e) steps ctx
      = some (Except.error e, ctx) :=
  ⟨rfl, rfl⟩

/-! ## C9: the `Error` completion-state branch is a no-op -/

/-- C9 counterexample: the claim asserts that when the body completes
successfully but leaves the `Error` state, the loop propagates immediately
and never runs another iteration.  Concretely: the body of iteration one
leaves the `Error` state, yet the run performs a second full iteration (three
pushes in total, counting the final `done` probe) and terminates normally
with the body value of iteration two. -/
theorem c9_counterexample_error_state_continues_loop :
    resultValue (ForOfLoop.run identLoop (Except.ok (Value.integer 0))
      (Except.ok ()) [errorStateStep, plainStep, doneStep] ctx0)
      = some (Except.ok (Value.integer 20))
    ∧ resultPushes (ForOfLoop.run identLoop (Except.ok (Value.integer 0))
      (Except.ok ()) [errorStateStep, plainStep, doneStep] ctx0) = some 3 :=
  ⟨rfl, rfl⟩

/-- C9 amended: the `Error` branch of the signal-interpretation step is a
no-op.  If the body execution returns successfully while the completion
state is `Error`, the loop pops the frame of the iteration and proceeds to the
next iteration exactly as in the `Executing` case, relying on the
fallible-result channel to have aborted execution beforehand.  Stated for a
single-entry `let` head, where the one-iteration effect on the context is fully
explicit: the run on such a step continues as the same loop on the remaining
steps, with the body value recorded as the latest result. -/
theorem c9_amended_error_state_is_noop (n : String) (it bd : Node)
    (lbl : Option String) (v b result : Value) (rest : List IterStep)
    (ctx : Context) :
    runLoop
        { variable' := Node.mk (NodeKind.LetDeclList [Declaration.mk n none])
          iterable := it, body := bd, label := lbl }
        (IterStep.mk (Except.ok (IteratorResult.mk false v))
          (Except.ok (b, InterpreterState.Error)) :: rest) result ctx
      = runLoop
          { variable' := Node.mk (NodeKind.LetDeclList [Declaration.mk n none])
            iterable := it, body := bd, label := lbl }
          rest b
          (Context.pop_environment
            { ((ctx.push_environment.create_mutable_binding n false
                VariableScope.Block).initialize_binding n v) with
                state := InterpreterState.Error }) :=
  rfl

/-! ## C10: construction, label lifecycle, getters -/

/-- C10: a freshly built `ForOfLoop` has no label; `set_label` makes `label`
return that label while leaving the target, iterable and body nodes
untouched; and `set_label` is a plain overwriting setter, so a second call
replaces the first label — nothing in the type enforces a set-at-most-once
discipline. -/
theorem c10_label_lifecycle :
    (∀ (v i b : Node), (ForOfLoop.new v i b).label = none)
    ∧ (∀ (x : ForOfLoop) (l : String),
        (x.set_label l).label = some l
        ∧ (x.set_label l).variable' = x.variable'
        ∧ (x.set_label l).iterable = x.iterable
        ∧ (x.set_label l).body = x.body)
    ∧ (∀ (x : ForOfLoop) (l l₂ : String),
        ((x.set_label l).set_label l₂).label = some l₂) :=
  ⟨fun _ _ _ => rfl, fun _ _ => ⟨rfl, rfl, rfl, rfl⟩, fun _ _ _ => rfl⟩

/-! ## C5 and C6: binding installation per head kind -/

/-- C5: with a single-entry, initializer-free `let` head, each iteration of
binding installation performs exactly `create_mutable_binding(name, false,
Block)` followed by `initialize_binding(name, value)` — in particular the
trace contains no `has_binding` query, so a fresh binding is installed
unconditionally rather than reusing an existing one. -/
theorem c5_let_head_installs_fresh_binding (name : String) (v : Value)
    (ctx : Context) :
    bindOpsSuffix (NodeKind.LetDeclList [Declaration.mk name none]) v ctx
      = Except.ok [EnvOp.create_mutable_binding name false VariableScope.Block,
          EnvOp.initialize_binding name v] := by
  simp [bindOpsSuffix, bindForOfTarget, Context.create_mutable_binding,
    Context.initialize_binding, Except.map, List.append_assoc, List.drop_left]

/-- C6: with a bare-identifier head, every iteration first queries
`has_binding(name)`; if the name resolves, the installation is a single
`set_mutable_binding(name, value, true)`, otherwise it is
`create_mutable_binding(name, true, Function)` followed by
`initialize_binding(name, value)` — with no initializer pre-check (no head
shape check can fail here). -/
theorem c6_identifier_head_dispatch (name : String) (v : Value) (ctx : Context) :
    bindOpsSuffix (NodeKind.Identifier name) v ctx
      = Except.ok (if ctx.bindings.contains name then
          [EnvOp.has_binding name, EnvOp.set_mutable_binding name v true]
        else
          [EnvOp.has_binding name,
            EnvOp.create_mutable_binding name true VariableScope.Function,
            EnvOp.initialize_binding name v]) := by
  by_cases h : name ∈ ctx.bindings
  · simp [bindOpsSuffix, bindForOfTarget, Context.has_binding,
      Context.set_mutable_binding, Context.create_mutable_binding,
      Context.initialize_binding, Except.map, List.append_assoc,
      List.drop_left, h]
  · simp [bindOpsSuffix, bindForOfTarget, Context.has_binding,
      Context.set_mutable_binding, Context.create_mutable_binding,
      Context.initialize_binding, Except.map, List.append_assoc,
      List.drop_left, h]

/-! ## C4: normal termination via the `done` branch -/

/-- Helper: on a bindable head the binding-installation step succeeds and
leaves the chain depth and the push/pop counters untouched. -/
theorem bind_preserves (kind : NodeKind) (v : Value) (ctx : Context)
    (hk : headBindable kind = true) :
    ∃ ctx₂, bindForOfTarget kind v ctx = Except.ok ctx₂
      ∧ ctx₂.envDepth = ctx.envDepth ∧ ctx₂.pushes = ctx.pushes
      ∧ ctx₂.pops = ctx.pops := by
  rcases kind with name | list | list | list | tag | tag
  · by_cases h : name ∈ ctx.bindings
    · exact ⟨((ctx.has_binding name).2).set_mutable_binding name v true,
        by simp [bindForOfTarget, Context.has_binding, h], rfl, rfl, rfl⟩
    · exact ⟨(((ctx.has_binding name).2).create_mutable_binding name true
          VariableScope.Function).initialize_binding name v,
        by simp [bindForOfTarget, Context.has_binding, h], rfl, rfl, rfl⟩
  · rcases list with _ | ⟨⟨nm, ini⟩, _ | ⟨d₂, t⟩⟩
    · simp [headBindable] at hk
    · rcases ini with _ | e
      · by_cases h : nm ∈ ctx.bindings
        · exact ⟨((ctx.has_binding nm).2).set_mutable_binding nm v true,
            by simp [bindForOfTarget, Context.has_binding, h], rfl, rfl, rfl⟩
        · exact ⟨(((ctx.has_binding nm).2).create_mutable_binding nm false
              VariableScope.Function).initialize_binding nm v,
            by simp [bindForOfTarget, Context.has_binding, h], rfl, rfl, rfl⟩
      · simp [headBindable] at hk
    · simp [headBindable] at hk
  · rcases list with _ | ⟨⟨nm, ini⟩, _ | ⟨d₂, t⟩⟩
    · simp [headBindable] at hk
    · rcases ini with _ | e
      · exact ⟨(ctx.create_mutable_binding nm false
            VariableScope.Block).initialize_binding nm v, rfl, rfl, rfl, rfl⟩
      · simp [headBindable] at hk
    · simp [headBindable] at hk
  · rcases list with _ | ⟨⟨nm, ini⟩, _ | ⟨d₂, t⟩⟩
    · simp [headBindable] at hk
    · rcases ini with _ | e
      · exact ⟨(ctx.create_immutable_binding nm false
            VariableScope.Block).initialize_binding nm v, rfl, rfl, rfl, rfl⟩
      · simp [headBindable] at hk
    · simp [headBindable] at hk
  · simp [headBindable] at hk
  · simp [headBindable] at hk

/-- Helper: a run of normally-completing iterations followed by a `done`
signal returns the last body value (or the carried result when there was no
iteration), restores the chain depth, and performs exactly one pop per push. -/
theorem runLoop_normal (self : ForOfLoop)
    (hk : headBindable self.variable'.kind = true) :
    ∀ (pairs : List (Value × Value)) (w : Value)
      (bo : Except Value (Value × InterpreterState)) (result : Value)
      (ctx : Context),
    ∃ ctx₂,
      runLoop self (pairs.map normalStepOf ++ [doneStepOf w bo]) result ctx
        = some (Except.ok (lastValueD (pairs.map Prod.snd) result), ctx₂)
      ∧ ctx₂.envDepth = ctx.envDepth
      ∧ ctx₂.pushes = ctx.pushes + (pairs.length + 1)
      ∧ ctx₂.pops = ctx.pops + (pairs.length + 1) := by
  intro pairs
  induction pairs with
  | nil =>
    intro w bo result ctx
    refine ⟨ctx.push_environment.pop_environment, ?_, ?_, ?_, ?_⟩
    · simp [runLoop, doneStepOf, lastValueD]
    · simp [Context.push_environment, Context.pop_environment]
    · rfl
    · rfl
  | cons p rest ih =>
    intro w bo result ctx
    obtain ⟨cb, hcb, hd, hpu, hpo⟩ :=
      bind_preserves self.variable'.kind p.1 ctx.push_environment hk
    simp [Context.push_environment] at hd hpu hpo
    obtain ⟨ctx₂, h1, h2, h3, h4⟩ := ih w bo p.2
      (Context.pop_environment { cb with state := InterpreterState.Executing })
    simp [Context.pop_environment] at h2 h3 h4
    have hstep : runLoop self ((p :: rest).map normalStepOf ++ [doneStepOf w bo])
        result ctx
        = runLoop self (rest.map normalStepOf ++ [doneStepOf w bo]) p.2
          (Context.pop_environment { cb with state := InterpreterState.Executing }) := by
      simp only [List.map_cons, List.cons_append]
      simp [runLoop, normalStepOf, hcb]
    refine ⟨ctx₂, ?_, ?_, ?_, ?_⟩
    · rw [hstep, h1]
      simp [lastValueD]
    · rw [h2]
      omega
    · rw [h3]
      simp only [List.length_cons]
      omega
    · rw [h4]
      simp only [List.length_cons]
      omega

/-- C4: when the iterator signals `done`, `run` pops the frame pushed for
that step and terminates normally, returning the value of the last
normally-completed body execution — or `undefined` if zero iterations ran —
with the chain depth restored and one pop per push on this path. -/
theorem c4_done_branch_returns_last_value (self : ForOfLoop)
    (pairs : List (Value × Value)) (w iterVal : Value)
    (bo : Except Value (Value × InterpreterState)) (ctx : Context)
    (hk : headBindable self.variable'.kind = true) :
    resultValue (ForOfLoop.run self (Except.ok iterVal) (Except.ok ())
        (pairs.map normalStepOf ++ [doneStepOf w bo]) ctx)
      = some (Except.ok (lastValueD (pairs.map Prod.snd) Value.undefined))
    ∧ resultDepth (ForOfLoop.run self (Except.ok iterVal) (Except.ok ())
        (pairs.map normalStepOf ++ [doneStepOf w bo]) ctx)
      = some ctx.envDepth
    ∧ resultPushes (ForOfLoop.run self (Except.ok iterVal) (Except.ok ())
        (pairs.map normalStepOf ++ [doneStepOf w bo]) ctx)
      = some (ctx.pushes + (pairs.length + 1))
    ∧ resultPops (ForOfLoop.run self (Except.ok iterVal) (Except.ok ())
        (pairs.map normalStepOf ++ [doneStepOf w bo]) ctx)
      = some (ctx.pops + (pairs.length + 1)) := by
  obtain ⟨ctx₂, h1, h2, h3, h4⟩ :=
    runLoop_normal self hk pairs w bo Value.undefined ctx
  refine ⟨?_, ?_, ?_, ?_⟩ <;>
    simp [ForOfLoop.run, h1, resultValue, resultDepth, resultPushes,
      resultPops, h2, h3, h4]

/-- C4 witness: a two-element iterable under a `let x` head — the run
returns the second body value `20`, ends at the entry depth `0`, and
performs three pushes and three pops (one pair per body iteration plus one
for the final `done` probe). -/
theorem c4_witness :
    resultValue (ForOfLoop.run letLoop (Except.ok (Value.integer 0)) (Except.ok ())
        ([(Value.integer 1, Value.integer 10),
          (Value.integer 2, Value.integer 20)].map normalStepOf
          ++ [doneStepOf Value.undefined
                (Except.ok (Value.undefined, InterpreterState.Executing))]) ctx0)
      = some (Except.ok (Value.integer 20))
    ∧ resultDepth (ForOfLoop.run letLoop (Except.ok (Value.integer 0)) (Except.ok ())
        ([(Value.integer 1, Value.integer 10),
          (Value.integer 2, Value.integer 20)].map normalStepOf
          ++ [doneStepOf Value.undefined
                (Except.ok (Value.undefined, InterpreterState.Executing))]) ctx0)
      = some 0
    ∧ resultPushes (ForOfLoop.run letLoop (Except.ok (Value.integer 0)) (Except.ok ())
        ([(Value.integer 1, Value.integer 10),
          (Value.integer 2, Value.integer 20)].map normalStepOf
          ++ [doneStepOf Value.undefined
                (Except.ok (Value.undefined, InterpreterState.Executing))]) ctx0)
      = some 3
    ∧ resultPops (ForOfLoop.run letLoop (Except.ok (Value.integer 0)) (Except.ok ())
        ([(Value.integer 1, Value.integer 10),
          (Value.integer 2, Value.integer 20)].map normalStepOf
          ++ [doneStepOf Value.undefined
                (Except.ok (Value.undefined, InterpreterState.Executing))]) ctx0)
      = some 3 :=
  c4_done_branch_returns_last_value letLoop
    [(Value.integer 1, Value.integer 10), (Value.integer 2, Value.integer 20)]
    Value.undefined (Value.integer 0)
    (Except.ok (Value.undefined, InterpreterState.Executing)) ctx0 (by decide)
